import Mathlib

/-!
# Satellite watch list

A shallow embedding of the Go program `satellite-watch-list` (files `main.go` and
`satellite.go`) together with theorems about its behaviour.

Conventions of the embedding:

* Go `string` values are Lean `String`s (sequences of code points); file contents are
  assumed to be valid UTF-8.
* Go `int` / `int64` values are Lean `Int`s.  The only arithmetic the program performs on
  them is division and remainder by 60, which cannot overflow.
* Go `error` values are represented by their message (`err.Error()`), a `String`.
* Go `map[string]string` is an association list with pairwise distinct keys; reading a
  missing key yields the empty string, as in Go.
* Go `float64` values are modelled exactly: sign, integer mantissa and binary exponent,
  the infinities and NaN.
* A file read through a `bufio.Scanner` is the sequence of texts that the scanner
  delivers, together with the error the scanner reports at the end, if any.
* Everything the program obtains from its surroundings (files, the HTTP client, the JSON
  decoder, the local time zone, the HTML template) is a field of `World`.
-/

set_option autoImplicit false
set_option maxRecDepth 100000

deriving instance DecidableEq for Except

namespace SatelliteWatch

/-! ## Library primitives -/

/-- Go `unicode.IsSpace`: the white space characters of Unicode. -/
def isSpace (c : Char) : Bool :=
  let n := c.toNat
  (9 ≤ n && n ≤ 13) || n == 32 || n == 0x85 || n == 0xA0 || n == 0x1680 ||
    (0x2000 ≤ n && n ≤ 0x200A) || n == 0x2028 || n == 0x2029 || n == 0x202F ||
    n == 0x205F || n == 0x3000

/-- Go `strings.TrimSpace` on a list of characters. -/
def trimChars (l : List Char) : List Char :=
  (l.dropWhile isSpace).rdropWhile isSpace

/-- Go `strings.TrimSpace`: drop leading and trailing white space. -/
def TrimSpace (s : String) : String :=
  ⟨trimChars s.data⟩

/-- Go `strings.HasPrefix(s, "#")` for a one character pattern. -/
def startsWith (s : String) (c : Char) : Bool :=
  match s.data with
  | [] => false
  | d :: _ => d == c

/-- Go `strings.Contains`: `sub` occurs as a contiguous block of `s`. -/
def Contains (s sub : String) : Bool :=
  decide (sub.data <:+: s.data)

/-- Go `strings.SplitN(s, sep, 2)` for a one character separator: the text before the
first separator and the text after it, or `s` alone when there is no separator. -/
def SplitN2 (s : String) (sep : Char) : List String :=
  match s.data.span (fun c => c != sep) with
  | (a, []) => [⟨a⟩]
  | (a, _ :: b) => [⟨a⟩, ⟨b⟩]

/-- The verb `%d` of `fmt.Sprintf` on an integer. -/
def fmtInt (i : Int) : String :=
  if i < 0 then "-" ++ Nat.repr i.natAbs else Nat.repr i.toNat

/-- A width `w` given to a verb of `fmt.Sprintf` (as in `%2d`): pad with blanks on the
left up to `w` characters. -/
def padLeft (w : Nat) (s : String) : String :=
  ⟨List.replicate (w - s.length) ' '⟩ ++ s

/-! ## Configuration maps -/

/-- A Go `map[string]string`. -/
abbrev Headers := List (String × String)

/-- The Go assignment `m[k] = v`. -/
def Headers.set (m : Headers) (k v : String) : Headers :=
  if m.any (fun p => p.1 == k) then
    m.map (fun p => if p.1 == k then (k, v) else p)
  else
    m ++ [(k, v)]

/-- Go `m[k]` as an option: `none` when the key is absent. -/
def Headers.find (m : Headers) (k : String) : Option String :=
  (m.find? (fun p => p.1 == k)).map Prod.snd

/-- The Go expression `m[k]`: the empty string when the key is absent. -/
def Headers.get (m : Headers) (k : String) : String :=
  (m.find k).getD ""

/-! ## Files -/

/-- What a `bufio.Scanner` over an opened file delivers: the texts returned by the
successive calls of `scanner.Text()` and the value of `scanner.Err()` once `Scan` has
returned false. -/
structure File where
  lines : List String
  scanErr : Option String

/-- One round of the loop of `readHeadersFromDotfile`. -/
def readHeadersStep (headers : Headers) (text : String) : Headers :=
  let line := TrimSpace text
  if line == "" || startsWith line '#' then
    headers
  else
    match SplitN2 line ':' with
    | [a, b] => headers.set (TrimSpace a) (TrimSpace b)
    | _ => headers

/-- The function `readHeadersFromDotfile` of `satellite.go`; `openFile` is `os.Open`. -/
def readHeadersFromDotfile (openFile : String → Except String File) (filename : String) :
    Except String Headers :=
  match openFile filename with
  | .error e => .error e
  | .ok file =>
    let headers := file.lines.foldl readHeadersStep []
    match file.scanErr with
    | some e => .error e
    | none => .ok headers

/-! ## Durations -/

/-- The function `secondsToDuration` of `satellite.go`: `fmt.Sprintf("%dm %2ds", ...)`
with Go's truncating division. -/
def secondsToDuration (totalSeconds : Int) : String :=
  let minutes := totalSeconds.tdiv 60
  let seconds := totalSeconds.tmod 60
  fmtInt minutes ++ "m " ++ padLeft 2 (fmtInt seconds) ++ "s"

/-! ## Floating point numbers -/

/-- A Go `float64`.  A finite number is given by its sign, an integer mantissa and a
binary exponent, and stands for `(-1)^neg * mant * 2^exp`; every finite `float64` is of
this form (with `mant < 2^53`), and so are both zeros. -/
inductive Float64 where
  | finite (neg : Bool) (mant : Nat) (exp : Int)
  | inf (neg : Bool)
  | nan

/-- The Go comparison `x == n` of a `float64` with a constant `n` that is a natural
number: true exactly when `x` is finite and its value is `n`. -/
def Float64.eqNat (x : Float64) (n : Nat) : Bool :=
  match x with
  | .finite neg mant exp =>
    if mant == 0 then n == 0
    else if neg then false
    else if 0 ≤ exp then mant * 2 ^ exp.toNat == n
    else mant == n * 2 ^ (-exp).toNat
  | .inf _ => false
  | .nan => false

/-- The integer nearest to `mant * 2^exp * 100`, ties going to the even one: the digits
that `strconv` keeps when it formats with two decimals. -/
def roundHundredths (mant : Nat) (exp : Int) : Nat :=
  if 0 ≤ exp then mant * 100 * 2 ^ exp.toNat
  else
    let d := 2 ^ (-exp).toNat
    let q := mant * 100 / d
    let r := mant * 100 % d
    if 2 * r < d then q
    else if d < 2 * r then q + 1
    else if q % 2 == 0 then q else q + 1

/-- The verb `%.2f` of `fmt.Sprintf` on a `float64`. -/
def fmtFloat2 (x : Float64) : String :=
  match x with
  | .nan => "NaN"
  | .inf false => "+Inf"
  | .inf true => "-Inf"
  | .finite neg mant exp =>
    let n := roundHundredths mant exp
    (if neg then "-" else "") ++ Nat.repr (n / 100) ++ "." ++
      Nat.repr (n / 10 % 10) ++ Nat.repr (n % 10)

/-! ## Query strings -/

/-- The upper case hexadecimal digit of a number below 16. -/
def upperHex (n : Nat) : Char :=
  "0123456789ABCDEF".data.getD n '0'

/-- One byte of a query component as `url.QueryEscape` writes it. -/
def escapeByte (b : Nat) : List Char :=
  let c := Char.ofNat b
  if c.isAlphanum || c == '-' || c == '_' || c == '.' || c == '~' then [c]
  else if b == 32 then ['+']
  else ['%', upperHex (b / 16), upperHex (b % 16)]

/-- Go `url.QueryEscape`. -/
def QueryEscape (s : String) : String :=
  ⟨((s.data.map (fun c => (String.utf8EncodeChar c).map UInt8.toNat)).flatten.map
    escapeByte).flatten⟩

/-- The Go comparison `a < b` of two strings, on their characters: the order of the
dictionary (the order of code points is the order of their UTF-8 bytes). -/
def ltChars : List Char → List Char → Bool
  | _, [] => false
  | [], _ :: _ => true
  | a :: as, b :: bs => a.toNat < b.toNat || (a == b && ltChars as bs)

/-- Insertion of an entry into a list of entries sorted by key. -/
def insertByKey (p : String × String) : List (String × String) → List (String × String)
  | [] => [p]
  | q :: rest =>
    if ltChars p.1.data q.1.data then p :: q :: rest else q :: insertByKey p rest

/-- The `url.Values` obtained by `queryParams.Add(key, value)` for every entry of `env`,
written out by `queryParams.Encode()`: the entries sorted by key, each as
`key=value` with both sides escaped, joined by `&`. -/
def Encode (env : Headers) : String :=
  String.intercalate "&"
    ((env.foldr insertByKey []).map (fun p => QueryEscape p.1 ++ "=" ++ QueryEscape p.2))

/-! ## Data model -/

/-- The struct `InfoStructure` of `satellite.go`. -/
structure InfoStructure where
  SatelliteId : Int
  SatelliteName : String
  TransactionsCount : Int
  PassesCount : Int

/-- The struct `PassStructure` of `satellite.go`. -/
structure PassStructure where
  StartAz : Float64
  StartAzCompass : String
  StartEl : Float64
  StartUTC : Int
  MaxAz : Float64
  MaxAzCompass : String
  MaxEl : Float64
  MaxUTC : Int
  EndAz : Float64
  EndAzCompass : String
  EndEl : Float64
  EndUTC : Int
  Mag : Float64
  Duration : Int
  StartVisibility : Int

/-- The struct `VisualPassesStructure` of `satellite.go`. -/
structure VisualPassesStructure where
  Info : InfoStructure
  Passes : List PassStructure

/-- The struct `PageData` of `main.go`. -/
structure PageData where
  Title : String
  Heading : String
  Count : Int
  Content : String
  Status : String

/-- A sequence of bytes. -/
abbrev Bytes := List UInt8

/-- The surroundings of the program. -/
structure World where
  /-- The call `os.Open` followed by a `bufio.Scanner` over the file. -/
  openFile : String → Except String File
  /-- The call `os.ReadFile`. -/
  readFile : String → Except String Bytes
  /-- The call `http.NewRequest("GET", url, nil)`: the error, if the request cannot be built. -/
  newRequest : String → Option String
  /-- The call `client.Do` on a GET request for the URL, then `io.ReadAll` on the body: a transport
  error, or else a read error or the body. -/
  httpDo : String → Except String (Except String Bytes)
  /-- The call `json.Unmarshal` into a fresh `VisualPassesStructure`. -/
  unmarshal : Bytes → Except String VisualPassesStructure
  /-- The text `time.Unix(s, 0).UTC().Local().Format(time.RFC822)` in the time zone of the process. -/
  formatLocalRFC822 : Int → String
  /-- The call `template.ParseFiles`; a parsed template is its `Execute`: the text written and the
  error, if any. -/
  parseFiles : String → Except String (PageData → String × Option String)

/-! ## Fetching -/

/-- The function `performVisualPassesDebug` of `satellite.go`. -/
def performVisualPassesDebug (w : World) (satelliteId : Int) : Except String Bytes :=
  match w.readFile ("./examples/visualpasses-" ++ fmtInt satelliteId ++ ".json") with
  | .error e => .error e
  | .ok data => .ok data

/-- What a call of `performVisualPassesLive` does: the value it returns and the URLs of
the requests it has handed to the HTTP client. -/
structure LiveOutcome where
  result : Except String Bytes
  sent : List String

/-- The path and query that `performVisualPassesLive` builds with
`fmt.Sprintf("/visualpasses/%d/%s/%s/%s/%s/%s?%s", ...)`. -/
def fullURL (satelliteId : Int) (env location preferences : Headers) : String :=
  "/visualpasses/" ++ fmtInt satelliteId ++ "/" ++ location.get "latitude" ++ "/" ++
    location.get "longitude" ++ "/" ++ location.get "altitude" ++ "/" ++
    preferences.get "days" ++ "/" ++ preferences.get "minimum_visibility" ++ "?" ++
    Encode env

/-- The function `performVisualPassesLive` of `satellite.go`. -/
def performVisualPassesLive (w : World) (satelliteId : Int) : LiveOutcome :=
  let baseURL := "https://api.n2yo.com/rest/v1/satellite"
  match readHeadersFromDotfile w.openFile ".env" with
  | .error e => ⟨.error ("reading header information: " ++ e), []⟩
  | .ok env =>
    match readHeadersFromDotfile w.openFile ".location" with
    | .error e => ⟨.error ("reading location detail: " ++ e), []⟩
    | .ok location =>
      match readHeadersFromDotfile w.openFile ".preferences" with
      | .error e => ⟨.error ("reading preferences: " ++ e), []⟩
      | .ok preferences =>
        let url := fullURL satelliteId env location preferences
        if Contains url "//" then
          ⟨.error ("some location or preference information is missing: " ++ url), []⟩
        else
          match w.newRequest (baseURL ++ url) with
          | some e => ⟨.error ("creating request: " ++ e), []⟩
          | none =>
            match w.httpDo (baseURL ++ url) with
            | .error e => ⟨.error ("sending request: " ++ e), [baseURL ++ url]⟩
            | .ok (.error e) => ⟨.error ("reading response: " ++ e), [baseURL ++ url]⟩
            | .ok (.ok body) => ⟨.ok body, [baseURL ++ url]⟩

/-- The function `performVisualPasses` of `satellite.go`; `DEBUG` is the global flag. -/
def performVisualPasses (w : World) (DEBUG : Bool) (satelliteId : Int) :
    Except String Bytes :=
  if DEBUG then performVisualPassesDebug w satelliteId
  else (performVisualPassesLive w satelliteId).result

/-- The loop of `getVisualPasses`: `results` holds the reports appended so far. -/
def getVisualPassesLoop (w : World) (DEBUG : Bool) :
    List Int → List VisualPassesStructure → List VisualPassesStructure × Option String
  | [], results => (results, none)
  | satelliteId :: rest, results =>
    match performVisualPasses w DEBUG satelliteId with
    | .error e => (results, some ("obtaining visual pass information: " ++ e))
    | .ok raw =>
      match w.unmarshal raw with
      | .error e => (results, some ("reading visual pass information: " ++ e))
      | .ok visualPassesStruct =>
        getVisualPassesLoop w DEBUG rest (results ++ [visualPassesStruct])

/-- The function `getVisualPasses` of `satellite.go`: it sets `DEBUG` and runs the loop
from an empty list.  The second component is the error, `none` standing for `nil`. -/
def getVisualPasses (w : World) (satelliteIds : List Int) :
    List VisualPassesStructure × Option String :=
  getVisualPassesLoop w true satelliteIds []

/-! ## Formatting -/

/-- The function `utcSecondsToLocalTime` of `satellite.go`. -/
def utcSecondsToLocalTime (w : World) (utcSeconds : Int) : String :=
  w.formatLocalRFC822 utcSeconds

/-- The function `makeInfoTable` of `main.go`. -/
def makeInfoTable (pass : VisualPassesStructure) : String :=
  "\n    <h2>" ++ pass.Info.SatelliteName ++ " (" ++ fmtInt pass.Info.SatelliteId ++
    ")</h2>\n    <ul>\n        <li>Transaction count: " ++
    fmtInt pass.Info.TransactionsCount ++ "</li>\n        <li>Pass count: " ++
    fmtInt (Int.ofNat pass.Passes.length) ++ "</li>\n    </ul>"

/-- The constant `htmlStart` of `makePassTable`: the opening of the table and its header
row. -/
def htmlStart : String :=
  "\n    <table> \n        <tr> \n\t\t    <th>Magnitude</th>\n\t\t    <th>Duration</th>\n\t\t    <th>Start Visibility</th>\n\t\t    <th>Start</th>\n\t\t    <th>Start Azimuth</th>\n\t\t    <th>Start Elevation</th>\n\t\t    <th>Max</th>\n\t\t    <th>Max Azimuth</th>\n\t\t    <th>Max Elevation</th>\n\t\t    <th>End</th>\n\t\t    <th>End Azimuth</th>\n\t\t    <th>End Elevation</th>\n       </tr>"

/-- The constant `htmlEnd` of `makePassTable`. -/
def htmlEnd : String :=
  "\n    </table>"

/-- The text `mag` that the loop of `makePassTable` computes for a pass. -/
def magCell (pass : PassStructure) : String :=
  if pass.Mag.eqNat 100000 then "-" else fmtFloat2 pass.Mag

/-- The row `fmt.Sprintf(htmlMiddle, ...)` that the loop of `makePassTable` appends for a
pass. -/
def passRow (w : World) (pass : PassStructure) : String :=
  "\n        <tr> \n            <td>" ++ magCell pass ++
    "</td>\n            <td>" ++ secondsToDuration pass.Duration ++
    "</td>\n            <td>" ++ utcSecondsToLocalTime w pass.StartVisibility ++
    "</td>\n            <td>" ++ utcSecondsToLocalTime w pass.StartUTC ++
    "</td>\n            <td>" ++ fmtFloat2 pass.StartAz ++ "&deg; (" ++ pass.StartAzCompass ++
    ")</td>\n            <td>" ++ fmtFloat2 pass.StartEl ++
    "&deg;</td>\n            <td>" ++ utcSecondsToLocalTime w pass.MaxUTC ++
    "</td>\n            <td>" ++ fmtFloat2 pass.MaxAz ++ "&deg; (" ++ pass.MaxAzCompass ++
    ")</td>\n            <td>" ++ fmtFloat2 pass.MaxEl ++
    "&deg;</td>\n            <td>" ++ utcSecondsToLocalTime w pass.EndUTC ++
    "</td>\n            <td>" ++ fmtFloat2 pass.EndAz ++ "&deg; (" ++ pass.EndAzCompass ++
    ")</td>\n            <td>" ++ fmtFloat2 pass.EndEl ++
    "&deg;</td>\n        </tr>"

/-- The function `makePassTable` of `main.go`: the loop appends one row per pass to
`htmlContents`, which starts empty. -/
def makePassTable (w : World) (visualPass : VisualPassesStructure) : String :=
  let htmlContents := visualPass.Passes.foldl (fun acc pass => acc ++ passRow w pass) ""
  htmlStart ++ htmlContents ++ htmlEnd

/-! ## The page handler -/

/-- Lines 34 to 60 of `main.go`: the page data built from what `getVisualPasses`
returned. -/
def pageData (w : World) (sightings : List VisualPassesStructure) (err : Option String) :
    PageData :=
  let status := match err with
    | some e => "Error: " ++ e
    | none => "OK"
  let contents := sightings.foldl
    (fun acc sighting =>
      acc ++ makeInfoTable sighting ++ "<br/>" ++ makePassTable w sighting ++ "<br/>") ""
  { Title := "Satellite Watcher"
    Heading := "Satellite Watcher"
    Count := Int.ofNat sightings.length
    Content := contents
    Status := status }

/-- What a handler does to its `http.ResponseWriter`. -/
inductive Effect where
  | write (text : String)
  | httpError (message : String) (code : Nat)
  deriving DecidableEq

/-- The function `satelliteWatchHandler` of `main.go`. -/
def satelliteWatchHandler (w : World) : List Effect :=
  match w.parseFiles "pages/satellite-passes.html" with
  | .error e => [Effect.httpError e 500]
  | .ok tmpl =>
    let satelliteIds : List Int := [25544, 48274, 20580]
    let (sightings, err) := getVisualPasses w satelliteIds
    match tmpl (pageData w sightings err) with
    | (out, none) => [Effect.write out]
    | (out, some e) => [Effect.write out, Effect.httpError e 500]

end SatelliteWatch

namespace SatelliteWatch

/-! ## Specification-side definitions -/

/-- The value of a finite `float64` as a rational number; `none` for infinities and NaN. -/
def Float64.toRat? : Float64 → Option ℚ
  | .finite neg mant exp => some ((if neg then -1 else 1) * (mant : ℚ) * (2 : ℚ) ^ exp)
  | .inf _ => none
  | .nan => none

/-- A number below 100 written with two digits, a leading zero added when it is below 10:
the zero padded seconds field that the specification describes. -/
def zeroPadded2 (n : Nat) : String :=
  if n < 10 then "0" ++ Nat.repr n else Nat.repr n

/-- The duration text as the specification words it: minutes, then the seconds zero
padded to width 2. -/
def durationZeroPadded (n : Nat) : String :=
  Nat.repr (n / 60) ++ "m " ++ zeroPadded2 (n % 60) ++ "s"

/-- The number of places of a text at which the pattern `sub` begins. -/
def countSub (sub : List Char) : List Char → Nat
  | [] => 0
  | c :: cs => (if sub.isPrefixOf (c :: cs) then 1 else 0) + countSub sub cs

/-- A check that the pattern `sub` does not begin the text `l`, whatever follows `l`: a
character of `l` differs from the pattern. -/
def mismatchWithin : List Char → List Char → Bool
  | p :: ps, x :: xs => p != x || mismatchWithin ps xs
  | _, _ => false

/-- A check that the pattern `sub` begins at no place of the text, whatever follows the
text. -/
def noStart (sub : List Char) : List Char → Bool
  | [] => true
  | c :: cs => mismatchWithin sub (c :: cs) && noStart sub cs

/-- The effects of a handler that executes a template: the text written, then the error
answer when the execution failed. -/
def renderEffects (r : String × Option String) : List Effect :=
  match r with
  | (out, none) => [Effect.write out]
  | (out, some e) => [Effect.write out, Effect.httpError e 500]

/-- The operation `fetchReport` of the specification: fetch the raw data of one
satellite as `getVisualPasses` does (the flag `DEBUG` set), then decode it; each failure
carries the message that `getVisualPasses` returns for it. -/
def fetchReport (w : World) (satelliteId : Int) : Except String VisualPassesStructure :=
  match performVisualPasses w true satelliteId with
  | .error e => .error ("obtaining visual pass information: " ++ e)
  | .ok raw =>
    match w.unmarshal raw with
    | .error e => .error ("reading visual pass information: " ++ e)
    | .ok report => .ok report

/-- The message of a failed result. -/
def errorOf {α : Type} (r : Except String α) : Option String :=
  match r with
  | .error e => some e
  | .ok _ => none

/-- A line that the loader skips: blank once trimmed, or starting with `#` once
trimmed. -/
def isIgnoredLine (text : String) : Bool :=
  TrimSpace text == "" || startsWith (TrimSpace text) '#'

/-- The key and the value that a line of a dotfile contributes, if any. -/
def parseLine (text : String) : Option (String × String) :=
  if isIgnoredLine text then none
  else
    match SplitN2 (TrimSpace text) ':' with
    | [a, b] => some (TrimSpace a, TrimSpace b)
    | _ => none

/-- The value of the last entry with key `k` in a sequence of entries. -/
def lastValue (k : String) (pairs : List (String × String)) : Option String :=
  (pairs.reverse.find? (fun p => p.1 == k)).map Prod.snd

/-- A sample credentials file: a comment, blank lines and two entries. -/
def sampleEnvFile : File :=
  { lines := ["# credentials", "", "apiKey: ABC-123 ", "   ", "days : 10"]
    scanErr := none }

/-- A sample file in which a key occurs twice and a value holds further colons. -/
def sampleDuplicateFile : File :=
  { lines := ["url: http://a", "# comment", " url : https://b:8080/x ", "other: y"]
    scanErr := none }

/-- A world in which the three dotfiles can be read, the location is complete and the
preferences give `days` but no `minimum_visibility`; every request is answered with an
empty body. -/
def missingVisibilityWorld : World :=
  { openFile := fun name =>
      if name == ".env" then .ok ⟨["apiKey: KEY"], none⟩
      else if name == ".location" then
        .ok ⟨["latitude: 51.5", "longitude: 0.12", "altitude: 0"], none⟩
      else if name == ".preferences" then .ok ⟨["# preferences", "days: 10"], none⟩
      else .error "no such file or directory"
    readFile := fun _ => .error "no such file or directory"
    newRequest := fun _ => none
    httpDo := fun _ => .ok (.ok [])
    unmarshal := fun _ => .error "unexpected end of JSON input"
    formatLocalRFC822 := fun _ => ""
    parseFiles := fun _ => .error "no such file or directory" }

/-- A sample pass: magnitude -2.5, 125 seconds, azimuths and elevations that are exact
binary fractions. -/
def samplePass : PassStructure :=
  { StartAz := .finite false 2481 (-3), StartAzCompass := "NW", StartEl := .finite false 21 (-1)
    StartUTC := 1700000000
    MaxAz := .finite false 45 0, MaxAzCompass := "NE", MaxEl := .finite false 171 (-2)
    MaxUTC := 1700000060
    EndAz := .finite false 725 (-3), EndAzCompass := "E", EndEl := .finite false 10 0
    EndUTC := 1700000125
    Mag := .finite true 5 (-1), Duration := 125, StartVisibility := 1700000000 }

/-- A sample report with one pass. -/
def sampleReport : VisualPassesStructure :=
  { Info := { SatelliteId := 25544, SatelliteName := "SPACE STATION",
              TransactionsCount := 5, PassesCount := 1 }
    Passes := [samplePass] }

/-- A sample template: the count, the status and the content, one after the other. -/
def sampleTemplate (data : PageData) : String × Option String :=
  (fmtInt data.Count ++ " reports, status " ++ data.Status ++ data.Content, none)

/-- A world in which only the fixture of satellite 25544 exists: the fetch of the second
of the three satellites of the handler fails. -/
def sampleWorld : World :=
  { openFile := fun _ => .error "no such file or directory"
    readFile := fun path =>
      if path == "./examples/visualpasses-25544.json" then .ok [123, 125]
      else .error ("open " ++ path ++ ": no such file or directory")
    newRequest := fun _ => none
    httpDo := fun _ => .error "no route to host"
    unmarshal := fun _ => .ok sampleReport
    formatLocalRFC822 := fun _ => "14 Nov 23 22:13 UTC"
    parseFiles := fun _ => .ok sampleTemplate }

/-- A check that a text begins with a character other than `t`, `r` and `>`, so that no
`<tr>` begun before the text can go on into it. -/
def headOk (lit : List Char) : Bool :=
  match lit with
  | h :: _ => h != 't' && h != 'r' && h != '>'
  | [] => false

/-- A report with one pass whose start compass label holds markup: the end of a cell and
of a row, and the opening of another row. -/
def hostileReport : VisualPassesStructure :=
  { sampleReport with
    Passes := [{ samplePass with StartAzCompass := "</td></tr><tr><td>" }] }

/-! ## Strings -/

theorem join_eq_foldl_aux (l : List String) (acc : String) :
    l.foldl (fun r s => r ++ s) acc = acc ++ String.join l := by
  induction l generalizing acc with
  | nil => simp [String.join]
  | cons a l ih =>
    simp only [List.foldl_cons, String.join]
    rw [ih, ih ("" ++ a), String.empty_append, String.append_assoc]

theorem join_cons (a : String) (l : List String) :
    String.join (a :: l) = a ++ String.join l := by
  simp only [String.join, List.foldl_cons]
  rw [join_eq_foldl_aux, String.empty_append]
  rfl

theorem foldl_append_map {α : Type} (f : α → String) (l : List α) (acc : String) :
    l.foldl (fun r x => r ++ f x) acc = acc ++ String.join (l.map f) := by
  induction l generalizing acc with
  | nil => simp [String.join]
  | cons a l ih =>
    simp only [List.foldl_cons, List.map_cons]
    rw [ih, join_cons, String.append_assoc]

theorem fmtInt_ofNat (n : Nat) : fmtInt (n : Int) = Nat.repr n := by
  unfold fmtInt
  have h : ¬ ((n : Int) < 0) := by omega
  rw [if_neg h, Int.toNat_ofNat]

/-! ## Durations -/

theorem padLeft_seconds :
    ∀ k : Fin 60, padLeft 2 (Nat.repr k.val) =
        (if k.val < 10 then " " ++ Nat.repr k.val else Nat.repr k.val) ∧
      (padLeft 2 (Nat.repr k.val)).length = 2 := by
  decide

/-- C7: `secondsToDuration(125)` is exactly the text `2m  5s`: two minutes, then the
seconds `5` in a field of width 2. -/
theorem secondsToDuration_125 : secondsToDuration 125 = "2m  5s" := by
  decide

/-- C6, as the claim words it, fails: with the seconds zero padded to width 2 the text for
125 seconds would be `2m 05s`, and `secondsToDuration` gives another text. -/
theorem secondsToDuration_not_zero_padded :
    durationZeroPadded 125 = "2m 05s" ∧ secondsToDuration 125 ≠ durationZeroPadded 125 := by
  decide

/-- C6, amended: for every number `n` of seconds that is not negative,
`secondsToDuration n` is the minutes `n / 60`, then `m` and a blank, then the seconds
`n % 60` padded with blanks (not zeros) on the left to width 2, then `s`; the seconds
are below 60 and `60 * minutes + seconds = n`. -/
theorem secondsToDuration_spec (n : Nat) :
    secondsToDuration (n : Int) =
        Nat.repr (n / 60) ++ "m " ++
          (if n % 60 < 10 then " " ++ Nat.repr (n % 60) else Nat.repr (n % 60)) ++ "s" ∧
      (padLeft 2 (fmtInt ((n : Int).tmod 60))).length = 2 ∧
      n % 60 < 60 ∧ 60 * (n / 60) + n % 60 = n := by
  have hd : (n : Int).tdiv 60 = ((n / 60 : Nat) : Int) := rfl
  have hm : (n : Int).tmod 60 = ((n % 60 : Nat) : Int) := rfl
  have hlt : n % 60 < 60 := Nat.mod_lt _ (by decide)
  have hp := padLeft_seconds ⟨n % 60, hlt⟩
  simp only at hp
  refine ⟨?_, ?_, hlt, Nat.div_add_mod n 60⟩
  · unfold secondsToDuration
    simp only [hd, hm, fmtInt_ofNat, hp.1]
  · rw [hm, fmtInt_ofNat]
    exact hp.2

/-! ## The magnitude cell -/

theorem Float64.eqNat_iff (x : Float64) (n : Nat) :
    x.eqNat n = true ↔ x.toRat? = some (n : ℚ) := by
  cases x with
  | nan => simp [Float64.eqNat, Float64.toRat?]
  | inf neg => simp [Float64.eqNat, Float64.toRat?]
  | finite neg mant exp =>
    simp only [Float64.eqNat, Float64.toRat?, Option.some.injEq]
    by_cases hm : mant = 0
    · subst hm
      simp only [beq_self_eq_true, if_true, beq_iff_eq, Nat.cast_zero, mul_zero, zero_mul]
      constructor
      · intro h; subst h; simp
      · intro h; exact_mod_cast h.symm
    · have hpos : (0 : ℚ) < (mant : ℚ) := by
        have : 0 < mant := Nat.pos_of_ne_zero hm
        exact_mod_cast this
      have h2 : (0 : ℚ) < (2 : ℚ) ^ exp := zpow_pos (by norm_num) exp
      have hbeq : (mant == 0) = false := by simpa using hm
      simp only [hbeq, Bool.false_eq_true, if_false]
      cases neg with
      | true =>
        simp only [if_true, Bool.false_eq_true, false_iff]
        intro h
        have hn : (0 : ℚ) ≤ (n : ℚ) := Nat.cast_nonneg n
        have : (-1 : ℚ) * (mant : ℚ) * (2 : ℚ) ^ exp < 0 := by
          have := mul_pos hpos h2
          linarith
        linarith
      | false =>
        simp only [Bool.false_eq_true, if_false, one_mul]
        by_cases he : 0 ≤ exp
        · obtain ⟨k, rfl⟩ := Int.eq_ofNat_of_zero_le he
          simp only [he, if_true, Int.toNat_ofNat, beq_iff_eq, zpow_natCast]
          constructor
          · intro h; rw [← h]; push_cast; rfl
          · intro h; exact_mod_cast h
        · have hk : exp = -(((-exp).toNat : Nat) : Int) := by
            rw [Int.toNat_of_nonneg (by omega)]; omega
          simp only [he, if_false, beq_iff_eq]
          generalize (-exp).toNat = k at hk
          subst hk
          rw [zpow_neg, zpow_natCast]
          have hk2 : (0 : ℚ) < (2 : ℚ) ^ k := pow_pos (by norm_num) k
          constructor
          · intro h
            rw [h]; push_cast
            field_simp
          · intro h
            have h3 : (mant : ℚ) = (n : ℚ) * (2 : ℚ) ^ k := by
              field_simp at h
              exact h
            exact_mod_cast h3

/-- The number that `%.2f` prints is a nearest multiple of one hundredth: it differs from
the value by at most half a hundredth. -/
theorem roundHundredths_nearest (mant : Nat) (exp : Int) :
    |(mant : ℚ) * (2 : ℚ) ^ exp * 100 - (roundHundredths mant exp : ℚ)| ≤ 1 / 2 := by
  unfold roundHundredths
  by_cases he : 0 ≤ exp
  · obtain ⟨k, rfl⟩ := Int.eq_ofNat_of_zero_le he
    simp only [he, if_true, Int.toNat_ofNat, zpow_natCast]
    have : (mant : ℚ) * 2 ^ k * 100 - ((mant * 100 * 2 ^ k : Nat) : ℚ) = 0 := by
      push_cast; ring
    rw [this]; norm_num
  · have hk : exp = -(((-exp).toNat : Nat) : Int) := by
      rw [Int.toNat_of_nonneg (by omega)]; omega
    simp only [he, if_false]
    generalize (-exp).toNat = k at hk
    subst hk
    rw [zpow_neg, zpow_natCast]
    have h2 : ((2 : ℚ) ^ k) = ((2 ^ k : Nat) : ℚ) := by push_cast; rfl
    rw [h2]
    have hdpos : 0 < 2 ^ k := Nat.two_pow_pos k
    have hdm := Nat.div_add_mod (mant * 100) (2 ^ k)
    have hlt := Nat.mod_lt (mant * 100) hdpos
    clear h2 he
    generalize 2 ^ k = d at *
    generalize mant * 100 / d = q at *
    generalize mant * 100 % d = r at *
    have hd : (0 : ℚ) < (d : ℚ) := by exact_mod_cast hdpos
    have hx : (mant : ℚ) * 100 = (d : ℚ) * q + r := by
      exact_mod_cast hdm.symm
    have hval : (mant : ℚ) * (d : ℚ)⁻¹ * 100 = q + (r : ℚ) / (d : ℚ) := by
      field_simp
      linarith
    rw [hval]
    have hr0 : (0 : ℚ) ≤ r := Nat.cast_nonneg r
    have hrd : (r : ℚ) < d := by exact_mod_cast hlt
    rw [abs_le]
    by_cases h1 : 2 * r < d
    · have h1q : (2 : ℚ) * r < d := by exact_mod_cast h1
      simp only [h1, if_true]
      constructor
      · have : (0 : ℚ) ≤ (r : ℚ) / d := div_nonneg hr0 hd.le
        linarith
      · have : (r : ℚ) / d ≤ 1 / 2 := by
          rw [div_le_iff₀ hd]; linarith
        linarith
    · by_cases h2 : d < 2 * r
      · have h2q : (d : ℚ) < 2 * r := by exact_mod_cast h2
        simp only [h1, h2, if_true, if_false]
        have hge : (1 : ℚ) / 2 ≤ (r : ℚ) / d := by
          rw [le_div_iff₀ hd]; linarith
        have hle : (r : ℚ) / d ≤ 1 := by
          rw [div_le_one hd]; exact hrd.le
        push_cast
        constructor <;> linarith
      · have heq : (2 : ℚ) * r = d := by
          have : 2 * r = d := by omega
          exact_mod_cast this
        have hhalf : (r : ℚ) / d = 1 / 2 := by
          rw [div_eq_div_iff hd.ne' (by norm_num)]; linarith
        simp only [h1, h2, if_false]
        split
        · constructor <;> linarith
        · push_cast
          constructor <;> linarith

theorem fmtFloat2_ne_dash (x : Float64) : fmtFloat2 x ≠ "-" := by
  intro h
  have hmem : '.' ∈ (fmtFloat2 x).data ∨ 'N' ∈ (fmtFloat2 x).data ∨
      'I' ∈ (fmtFloat2 x).data := by
    cases x with
    | nan => right; left; decide
    | inf neg => right; right; cases neg <;> decide
    | finite neg mant exp =>
      left
      simp only [fmtFloat2, String.data_append, List.mem_append]
      left; left; right
      decide
  rw [h] at hmem
  revert hmem
  decide

theorem magCell_sentinel (w : World) (pass : PassStructure) :
    (∃ rest, passRow w pass =
        "\n        <tr> \n            <td>" ++ magCell pass ++ "</td>" ++ rest) ∧
      magCell pass =
        (if pass.Mag.toRat? = some 100000 then "-" else fmtFloat2 pass.Mag) ∧
      (magCell pass = "-" ↔ pass.Mag.toRat? = some 100000) := by
  have hiff := Float64.eqNat_iff pass.Mag 100000
  have hcast : ((100000 : Nat) : ℚ) = 100000 := by norm_num
  rw [hcast] at hiff
  have hcell : magCell pass =
      (if pass.Mag.toRat? = some 100000 then "-" else fmtFloat2 pass.Mag) := by
    unfold magCell
    by_cases h : pass.Mag.eqNat 100000 = true
    · rw [if_pos h, if_pos (hiff.mp h)]
    · rw [if_neg h, if_neg (fun h2 => h (hiff.mpr h2))]
  refine ⟨?_, hcell, ?_⟩
  · unfold passRow
    simp only [String.append_assoc]
    have hsplit : "</td>\n            <td>" = "</td>" ++ "\n            <td>" := by
      decide
    rw [hsplit]
    simp only [String.append_assoc]
    constructor
    rfl
  · rw [hcell]
    by_cases h : pass.Mag.toRat? = some 100000
    · simp [h]
    · simp only [h, if_false, iff_false]
      exact fmtFloat2_ne_dash _

/-- When the value lies half way between two hundredths, the number that `%.2f` prints
is the even one. -/
theorem roundHundredths_tie_even (mant : Nat) (exp : Int)
    (h : |(mant : ℚ) * (2 : ℚ) ^ exp * 100 - (roundHundredths mant exp : ℚ)| = 1 / 2) :
    roundHundredths mant exp % 2 = 0 := by
  unfold roundHundredths at h ⊢
  by_cases he : 0 ≤ exp
  · exfalso
    obtain ⟨k, rfl⟩ := Int.eq_ofNat_of_zero_le he
    simp only [he, if_true, Int.toNat_ofNat, zpow_natCast] at h
    have : (mant : ℚ) * 2 ^ k * 100 - ((mant * 100 * 2 ^ k : Nat) : ℚ) = 0 := by
      push_cast; ring
    rw [this] at h
    norm_num at h
  · have hk : exp = -(((-exp).toNat : Nat) : Int) := by
      rw [Int.toNat_of_nonneg (by omega)]; omega
    simp only [he, if_false] at h ⊢
    generalize (-exp).toNat = k at hk h ⊢
    subst hk
    rw [zpow_neg, zpow_natCast] at h
    have h2 : ((2 : ℚ) ^ k) = ((2 ^ k : Nat) : ℚ) := by push_cast; rfl
    rw [h2] at h
    have hdpos : 0 < 2 ^ k := Nat.two_pow_pos k
    have hdm := Nat.div_add_mod (mant * 100) (2 ^ k)
    have hlt := Nat.mod_lt (mant * 100) hdpos
    clear h2 he
    generalize 2 ^ k = d at *
    generalize mant * 100 / d = q at *
    generalize mant * 100 % d = r at *
    have hd : (0 : ℚ) < (d : ℚ) := by exact_mod_cast hdpos
    have hx : (mant : ℚ) * 100 = (d : ℚ) * q + r := by
      exact_mod_cast hdm.symm
    have hval : (mant : ℚ) * (d : ℚ)⁻¹ * 100 = q + (r : ℚ) / (d : ℚ) := by
      field_simp
      linarith
    rw [hval] at h
    have hr0 : (0 : ℚ) ≤ r := Nat.cast_nonneg r
    have hrd : (r : ℚ) < d := by exact_mod_cast hlt
    by_cases h1 : 2 * r < d
    · exfalso
      have h1q : (2 : ℚ) * r < d := by exact_mod_cast h1
      simp only [h1, if_true] at h
      have hlt2 : (r : ℚ) / d < 1 / 2 := by
        rw [div_lt_iff₀ hd]; linarith
      have hge : (0 : ℚ) ≤ (r : ℚ) / d := div_nonneg hr0 hd.le
      have habs : |(q : ℚ) + (r : ℚ) / d - q| = (r : ℚ) / d := by
        rw [add_sub_cancel_left, abs_of_nonneg hge]
      rw [habs] at h
      linarith
    · by_cases h2 : d < 2 * r
      · exfalso
        have h2q : (d : ℚ) < 2 * r := by exact_mod_cast h2
        simp only [h1, h2, if_true, if_false] at h
        have hgt : (1 : ℚ) / 2 < (r : ℚ) / d := by
          rw [lt_div_iff₀ hd]; linarith
        have hle : (r : ℚ) / d ≤ 1 := by
          rw [div_le_one hd]; exact hrd.le
        have habs : |(q : ℚ) + (r : ℚ) / d - ((q + 1 : Nat) : ℚ)| = 1 - (r : ℚ) / d := by
          push_cast
          have : (q : ℚ) + (r : ℚ) / d - ((q : ℚ) + 1) = -(1 - (r : ℚ) / d) := by ring
          rw [this, abs_neg, abs_of_nonneg (by linarith)]
        rw [habs] at h
        linarith
      · simp only [h1, h2, if_false]
        by_cases hq : q % 2 = 0
        · simp [hq]
        · have hq1 : q % 2 = 1 := by omega
          simp only [hq1]
          have : ((1 : Nat) == 0) = false := by decide
          simp only [this, Bool.false_eq_true, if_false]
          omega

theorem repr_digit_length : ∀ d, d < 10 → (Nat.repr d).length = 1 := by
  decide

/-- C5: in the row that `makePassTable` produces for a pass, the first cell is the
magnitude cell; it is the text `-` exactly when the magnitude of the pass is the number
100000; for every other finite magnitude it is that value with two decimals: the sign,
then the decimal digits of `n / 100`, a point and the two digits of `n % 100`, where `n`
is the whole number of hundredths nearest to the absolute value (the even one on a tie);
for an infinity or NaN it is `+Inf`, `-Inf` or `NaN`; none of these is the text `-`. -/
theorem magCell_spec (w : World) (pass : PassStructure) :
    (∃ rest, passRow w pass =
        "\n        <tr> \n            <td>" ++ magCell pass ++ "</td>" ++ rest) ∧
      magCell pass =
        (if pass.Mag.toRat? = some 100000 then "-" else fmtFloat2 pass.Mag) ∧
      (magCell pass = "-" ↔ pass.Mag.toRat? = some 100000) ∧
      (match pass.Mag with
        | .finite neg mant exp =>
          pass.Mag.toRat? = some 100000 ∨
            ∃ n : Nat,
              |(mant : ℚ) * (2 : ℚ) ^ exp * 100 - (n : ℚ)| ≤ 1 / 2 ∧
              (|(mant : ℚ) * (2 : ℚ) ^ exp * 100 - (n : ℚ)| = 1 / 2 → n % 2 = 0) ∧
              (Nat.repr (n / 10 % 10) ++ Nat.repr (n % 10)).length = 2 ∧
              magCell pass =
                (if neg then "-" else "") ++ Nat.repr (n / 100) ++ "." ++
                  Nat.repr (n / 10 % 10) ++ Nat.repr (n % 10)
        | .inf neg => magCell pass = (if neg then "-Inf" else "+Inf")
        | .nan => magCell pass = "NaN") := by
  obtain ⟨h1, h2, h3⟩ := magCell_sentinel w pass
  refine ⟨h1, h2, h3, ?_⟩
  cases hm : pass.Mag with
  | nan =>
    simp only
    rw [h2, hm]
    simp [Float64.toRat?, fmtFloat2]
  | inf neg =>
    simp only
    rw [h2, hm]
    cases neg <;> simp [Float64.toRat?, fmtFloat2]
  | finite neg mant exp =>
    simp only
    by_cases hs : (Float64.finite neg mant exp).toRat? = some 100000
    · exact Or.inl hs
    · right
      refine ⟨roundHundredths mant exp, roundHundredths_nearest mant exp,
        roundHundredths_tie_even mant exp, ?_, ?_⟩
      · rw [String.length_append,
          repr_digit_length _ (Nat.mod_lt _ (by decide)),
          repr_digit_length _ (Nat.mod_lt _ (by decide))]
      · rw [h2, hm, if_neg hs]
        rfl

/-- The magnitude cell at sample values: the sentinel 100000, then 0.125 (a tie, rounded to
the even hundredth), -2.5 and 99999.99609375. -/
theorem magCell_samples :
    magCell { samplePass with Mag := .finite false 100000 0 } = "-" ∧
      magCell { samplePass with Mag := .finite false 1 (-3) } = "0.12" ∧
      magCell samplePass = "-2.50" ∧
      magCell { samplePass with Mag := .finite false 25599999 (-8) } = "100000.00" := by
  decide

/-! ## The tables -/

/-- C10: the summary shows, after the heading with the name and the id of the satellite,
the transaction count `Info.TransactionsCount` and, as pass count, the length of the pass
list; replacing `Info.PassesCount` by any other number leaves the summary unchanged. -/
theorem makeInfoTable_pass_count (v : VisualPassesStructure) (c : Int) :
    makeInfoTable v =
        "\n    <h2>" ++ v.Info.SatelliteName ++ " (" ++ fmtInt v.Info.SatelliteId ++
          ")</h2>\n    <ul>\n        <li>Transaction count: " ++
          fmtInt v.Info.TransactionsCount ++ "</li>\n        <li>Pass count: " ++
          Nat.repr v.Passes.length ++ "</li>\n    </ul>" ∧
      makeInfoTable { v with Info := { v.Info with PassesCount := c } } =
        makeInfoTable v := by
  refine ⟨?_, rfl⟩
  unfold makeInfoTable
  have h : fmtInt (Int.ofNat v.Passes.length) = Nat.repr v.Passes.length :=
    fmtInt_ofNat _
  rw [h]

/-! ## Occurrences of the row tag -/

theorem isPrefixOf_of_mismatchWithin (sub l rest : List Char)
    (h : mismatchWithin sub l = true) : sub.isPrefixOf (l ++ rest) = false := by
  induction sub generalizing l with
  | nil => simp [mismatchWithin] at h
  | cons p ps ih =>
    cases l with
    | nil => simp [mismatchWithin] at h
    | cons x xs =>
      simp only [mismatchWithin, Bool.or_eq_true] at h
      simp only [List.cons_append, List.isPrefixOf]
      rcases h with h | h
      · have : (p == x) = false := by simpa using h
        simp [this]
      · simp [ih xs h]

theorem countSub_noStart (sub lit rest : List Char) (h : noStart sub lit = true) :
    countSub sub (lit ++ rest) = countSub sub rest := by
  induction lit with
  | nil => rfl
  | cons c cs ih =>
    simp only [noStart, Bool.and_eq_true] at h
    have hp := isPrefixOf_of_mismatchWithin sub (c :: cs) rest h.1
    simp only [List.cons_append] at hp ⊢
    simp only [countSub, hp, Bool.false_eq_true, if_false, Nat.zero_add]
    exact ih h.2

theorem countSub_no_head (h : Char) (ps a rest : List Char) (ha : h ∉ a) :
    countSub (h :: ps) (a ++ rest) = countSub (h :: ps) rest := by
  induction a with
  | nil => rfl
  | cons c cs ih =>
    have hc : (h == c) = false := by
      have : h ≠ c := fun e => ha (e ▸ List.mem_cons_self _ _)
      simpa using this
    simp only [List.cons_append, countSub, List.isPrefixOf, hc, Bool.false_and,
      Bool.false_eq_true, if_false, Nat.zero_add]
    exact ih (fun hm => ha (List.mem_cons_of_mem _ hm))

theorem countSub_one (sub a b rest : List Char) (hne : sub ≠ [])
    (ha : noStart sub a = true) (hb : noStart sub (sub.tail ++ b) = true) :
    countSub sub (a ++ sub ++ b ++ rest) = 1 + countSub sub rest := by
  rw [List.append_assoc, List.append_assoc, countSub_noStart sub a _ ha]
  cases sub with
  | nil => exact absurd rfl hne
  | cons p ps =>
    have hpre : (p :: ps).isPrefixOf (p :: ps ++ (b ++ rest)) = true := by
      rw [List.isPrefixOf_iff_prefix]
      exact List.prefix_append _ _
    simp only [List.cons_append] at hpre ⊢
    simp only [countSub, hpre, if_true]
    simp only [List.tail_cons] at hb
    rw [← List.append_assoc, countSub_noStart (p :: ps) (ps ++ b) rest hb]

theorem digitChar_ne_lt : ∀ d, d < 10 → Nat.digitChar d ≠ '<' := by
  decide

theorem toDigitsCore_no_lt (fuel n : Nat) (acc : List Char) (h : '<' ∉ acc) :
    '<' ∉ Nat.toDigitsCore 10 fuel n acc := by
  induction fuel generalizing n acc with
  | zero => simpa [Nat.toDigitsCore] using h
  | succ f ih =>
    have hcons : '<' ∉ Nat.digitChar (n % 10) :: acc := by
      intro hm
      rcases List.mem_cons.mp hm with e | e
      · exact digitChar_ne_lt _ (Nat.mod_lt n (by decide)) e.symm
      · exact h e
    simp only [Nat.toDigitsCore]
    split
    · exact hcons
    · exact ih _ _ hcons

theorem repr_no_lt (n : Nat) : '<' ∉ (Nat.repr n).data := by
  unfold Nat.repr Nat.toDigits
  exact toDigitsCore_no_lt _ _ _ (by simp)

theorem fmtInt_no_lt (i : Int) : '<' ∉ (fmtInt i).data := by
  unfold fmtInt
  split
  · simp only [String.data_append, List.mem_append, not_or]
    exact ⟨by decide, repr_no_lt _⟩
  · exact repr_no_lt _

theorem secondsToDuration_no_lt (n : Int) : '<' ∉ (secondsToDuration n).data := by
  unfold secondsToDuration padLeft
  simp only [String.data_append, List.mem_append, not_or]
  refine ⟨⟨⟨fmtInt_no_lt _, by decide⟩, ?_, fmtInt_no_lt _⟩, by decide⟩
  intro h
  have := List.eq_of_mem_replicate h
  revert this
  decide

theorem fmtFloat2_no_lt (x : Float64) : '<' ∉ (fmtFloat2 x).data := by
  cases x with
  | nan => decide
  | inf neg => cases neg <;> decide
  | finite neg mant exp =>
    simp only [fmtFloat2, String.data_append, List.mem_append, not_or]
    refine ⟨⟨⟨⟨?_, repr_no_lt _⟩, by decide⟩, repr_no_lt _⟩, repr_no_lt _⟩
    cases neg <;> decide

theorem magCell_no_lt (p : PassStructure) : '<' ∉ (magCell p).data := by
  unfold magCell
  split
  · decide
  · exact fmtFloat2_no_lt _

theorem isPrefixOf_append_headOk (l rest : List Char) (hl : l ≠ [])
    (hr : headOk rest = true) :
    ['<', 't', 'r', '>'].isPrefixOf (l ++ rest) = ['<', 't', 'r', '>'].isPrefixOf l := by
  cases rest with
  | nil => simp [headOk] at hr
  | cons h rt =>
    simp only [headOk, Bool.and_eq_true, bne_iff_ne, ne_eq] at hr
    obtain ⟨⟨ht, hr2⟩, hg⟩ := hr
    have e1 : ('t' == h) = false := by simpa using fun e => ht e.symm
    have e2 : ('r' == h) = false := by simpa using fun e => hr2 e.symm
    have e3 : ('>' == h) = false := by simpa using fun e => hg e.symm
    rcases l with _ | ⟨a, _ | ⟨b, _ | ⟨c, _ | ⟨d, l'⟩⟩⟩⟩
    · exact absurd rfl hl
    · simp [List.isPrefixOf, e1]
    · simp [List.isPrefixOf, e2]
    · simp [List.isPrefixOf, e3]
    · simp [List.isPrefixOf]

theorem countSub_append_cell (cell rest : List Char) (hr : headOk rest = true) :
    countSub ['<', 't', 'r', '>'] (cell ++ rest) =
      countSub ['<', 't', 'r', '>'] cell + countSub ['<', 't', 'r', '>'] rest := by
  induction cell with
  | nil => simp [countSub]
  | cons c cs ih =>
    have hp := isPrefixOf_append_headOk (c :: cs) rest (by simp) hr
    simp only [List.cons_append] at hp ⊢
    simp only [countSub, hp, ih]
    omega

theorem countSub_cell_then_lit (cell lit x : List Char) (k : Nat)
    (hl : noStart ['<', 't', 'r', '>'] lit = true) (hh : headOk lit = true)
    (h : countSub ['<', 't', 'r', '>'] x = k) :
    countSub ['<', 't', 'r', '>'] (cell ++ (lit ++ x)) =
      countSub ['<', 't', 'r', '>'] cell + k := by
  have hh2 : headOk (lit ++ x) = true := by
    cases lit with
    | nil => simp [headOk] at hh
    | cons a lt => simpa [headOk] using hh
  rw [countSub_append_cell cell (lit ++ x) hh2,
    countSub_noStart ['<', 't', 'r', '>'] lit x hl, h]

theorem countSub_eq_zero_of_no_lt (cell : List Char) (h : '<' ∉ cell) :
    countSub ['<', 't', 'r', '>'] cell = 0 := by
  have := countSub_no_head '<' ['t', 'r', '>'] cell [] h
  simpa [countSub] using this

theorem countSub_eq_zero_of_not_contains (s : String) (h : Contains s "<tr>" = false) :
    countSub "<tr>".data s.data = 0 := by
  unfold Contains at h
  have hn : ¬ ("<tr>".data <:+: s.data) := by simpa using h
  clear h
  generalize s.data = l at hn
  induction l with
  | nil => rfl
  | cons c cs ih =>
    have hpre : "<tr>".data.isPrefixOf (c :: cs) = false := by
      cases hb : "<tr>".data.isPrefixOf (c :: cs) with
      | false => rfl
      | true =>
        exact absurd (List.IsPrefix.isInfix (List.isPrefixOf_iff_prefix.mp hb)) hn
    have htail : ¬ ("<tr>".data <:+: cs) := fun hi => hn (List.infix_cons hi)
    simp only [countSub, hpre, Bool.false_eq_true, if_false, Nat.zero_add]
    exact ih htail

theorem countSub_passRow_exact (w : World) (pass : PassStructure) (rest : List Char) :
    countSub ['<', 't', 'r', '>'] ((passRow w pass).data ++ rest) =
      1 + (countSub ['<', 't', 'r', '>'] (utcSecondsToLocalTime w pass.StartVisibility).data +
            countSub ['<', 't', 'r', '>'] (utcSecondsToLocalTime w pass.StartUTC).data +
            countSub ['<', 't', 'r', '>'] pass.StartAzCompass.data +
            countSub ['<', 't', 'r', '>'] (utcSecondsToLocalTime w pass.MaxUTC).data +
            countSub ['<', 't', 'r', '>'] pass.MaxAzCompass.data +
            countSub ['<', 't', 'r', '>'] (utcSecondsToLocalTime w pass.EndUTC).data +
            countSub ['<', 't', 'r', '>'] pass.EndAzCompass.data) + countSub ['<', 't', 'r', '>'] rest := by
  have hsum : countSub ['<', 't', 'r', '>'] ((passRow w pass).data ++ rest) =
      1 + (countSub ['<', 't', 'r', '>'] (magCell pass).data +
        (countSub ['<', 't', 'r', '>'] (secondsToDuration pass.Duration).data +
        (countSub ['<', 't', 'r', '>'] (utcSecondsToLocalTime w pass.StartVisibility).data +
        (countSub ['<', 't', 'r', '>'] (utcSecondsToLocalTime w pass.StartUTC).data +
        (countSub ['<', 't', 'r', '>'] (fmtFloat2 pass.StartAz).data +
        (countSub ['<', 't', 'r', '>'] pass.StartAzCompass.data +
        (countSub ['<', 't', 'r', '>'] (fmtFloat2 pass.StartEl).data +
        (countSub ['<', 't', 'r', '>'] (utcSecondsToLocalTime w pass.MaxUTC).data +
        (countSub ['<', 't', 'r', '>'] (fmtFloat2 pass.MaxAz).data +
        (countSub ['<', 't', 'r', '>'] pass.MaxAzCompass.data +
        (countSub ['<', 't', 'r', '>'] (fmtFloat2 pass.MaxEl).data +
        (countSub ['<', 't', 'r', '>'] (utcSecondsToLocalTime w pass.EndUTC).data +
        (countSub ['<', 't', 'r', '>'] (fmtFloat2 pass.EndAz).data +
        (countSub ['<', 't', 'r', '>'] pass.EndAzCompass.data +
        (countSub ['<', 't', 'r', '>'] (fmtFloat2 pass.EndEl).data +
          countSub ['<', 't', 'r', '>'] rest))))))))))))))) := by
    unfold passRow
    simp only [String.data_append, List.append_assoc]
    refine (countSub_one ['<', 't', 'r', '>'] "\n        ".data " \n            <td>".data _
      (by decide) (by decide) (by decide)).trans ?_
    congr 1
    iterate 15
      refine countSub_cell_then_lit _ _ _ _ (by decide) (by decide) ?_
    rfl
  rw [hsum, countSub_eq_zero_of_no_lt _ (magCell_no_lt pass),
    countSub_eq_zero_of_no_lt _ (secondsToDuration_no_lt _),
    countSub_eq_zero_of_no_lt _ (fmtFloat2_no_lt pass.StartAz),
    countSub_eq_zero_of_no_lt _ (fmtFloat2_no_lt pass.StartEl),
    countSub_eq_zero_of_no_lt _ (fmtFloat2_no_lt pass.MaxAz),
    countSub_eq_zero_of_no_lt _ (fmtFloat2_no_lt pass.MaxEl),
    countSub_eq_zero_of_no_lt _ (fmtFloat2_no_lt pass.EndAz),
    countSub_eq_zero_of_no_lt _ (fmtFloat2_no_lt pass.EndEl)]
  omega

theorem countSub_rows_exact (w : World) (passes : List PassStructure) (rest : List Char) :
    countSub ['<', 't', 'r', '>'] ((String.join (passes.map (passRow w))).data ++ rest) =
      passes.length + (passes.map (fun pass => countSub ['<', 't', 'r', '>'] (utcSecondsToLocalTime w pass.StartVisibility).data +
            countSub ['<', 't', 'r', '>'] (utcSecondsToLocalTime w pass.StartUTC).data +
            countSub ['<', 't', 'r', '>'] pass.StartAzCompass.data +
            countSub ['<', 't', 'r', '>'] (utcSecondsToLocalTime w pass.MaxUTC).data +
            countSub ['<', 't', 'r', '>'] pass.MaxAzCompass.data +
            countSub ['<', 't', 'r', '>'] (utcSecondsToLocalTime w pass.EndUTC).data +
            countSub ['<', 't', 'r', '>'] pass.EndAzCompass.data)).sum +
        countSub ['<', 't', 'r', '>'] rest := by
  induction passes with
  | nil => simp [String.join]
  | cons p ps ih =>
    rw [List.map_cons, join_cons, String.data_append, List.append_assoc,
      countSub_passRow_exact w p, ih, List.length_cons, List.map_cons, List.sum_cons]
    omega

/-- C8, as the claim words it, fails: for a report with one pass whose start compass
label holds the text of a row opening, the output holds `<tr>` three times, not
`len(Passes) + 1 = 2` times. -/
theorem makePassTable_injected_row_tag :
    countSub "<tr>".data (makePassTable sampleWorld hostileReport).data = 3 ∧
      hostileReport.Passes.length + 1 = 2 := by
  decide

/-- C8, amended: the output of `makePassTable` is the opening of the table and the fixed
header row, then one row per pass in the order of the pass list, each with its twelve
cells, then the closing of the table; with no pass it is the opening, the header row and
the closing only.  The text `<tr>` occurs in it `len(Passes) + 1` times plus the number
of times it occurs inside the compass labels and the local time texts, which are
written out as they are; so it occurs exactly `len(Passes) + 1` times when none of
these texts holds `<tr>`. -/
theorem makePassTable_rows (w : World) (v : VisualPassesStructure) :
    makePassTable w v =
        "\n    <table> \n        <tr> \n\t\t    <th>Magnitude</th>\n\t\t    <th>Duration</th>\n\t\t    <th>Start Visibility</th>\n\t\t    <th>Start</th>\n\t\t    <th>Start Azimuth</th>\n\t\t    <th>Start Elevation</th>\n\t\t    <th>Max</th>\n\t\t    <th>Max Azimuth</th>\n\t\t    <th>Max Elevation</th>\n\t\t    <th>End</th>\n\t\t    <th>End Azimuth</th>\n\t\t    <th>End Elevation</th>\n       </tr>" ++
        String.join (v.Passes.map (fun pass =>
          "\n        <tr> \n            <td>" ++ magCell pass ++
            "</td>\n            <td>" ++ secondsToDuration pass.Duration ++
            "</td>\n            <td>" ++ utcSecondsToLocalTime w pass.StartVisibility ++
            "</td>\n            <td>" ++ utcSecondsToLocalTime w pass.StartUTC ++
            "</td>\n            <td>" ++ fmtFloat2 pass.StartAz ++ "&deg; (" ++
            pass.StartAzCompass ++
            ")</td>\n            <td>" ++ fmtFloat2 pass.StartEl ++
            "&deg;</td>\n            <td>" ++ utcSecondsToLocalTime w pass.MaxUTC ++
            "</td>\n            <td>" ++ fmtFloat2 pass.MaxAz ++ "&deg; (" ++
            pass.MaxAzCompass ++
            ")</td>\n            <td>" ++ fmtFloat2 pass.MaxEl ++
            "&deg;</td>\n            <td>" ++ utcSecondsToLocalTime w pass.EndUTC ++
            "</td>\n            <td>" ++ fmtFloat2 pass.EndAz ++ "&deg; (" ++
            pass.EndAzCompass ++
            ")</td>\n            <td>" ++ fmtFloat2 pass.EndEl ++
            "&deg;</td>\n        </tr>")) ++
        "\n    </table>" ∧
      makePassTable w { v with Passes := [] } =
        "\n    <table> \n        <tr> \n\t\t    <th>Magnitude</th>\n\t\t    <th>Duration</th>\n\t\t    <th>Start Visibility</th>\n\t\t    <th>Start</th>\n\t\t    <th>Start Azimuth</th>\n\t\t    <th>Start Elevation</th>\n\t\t    <th>Max</th>\n\t\t    <th>Max Azimuth</th>\n\t\t    <th>Max Elevation</th>\n\t\t    <th>End</th>\n\t\t    <th>End Azimuth</th>\n\t\t    <th>End Elevation</th>\n       </tr>\n    </table>" ∧
      countSub "<tr>".data (makePassTable w v).data =
        v.Passes.length + 1 +
          (v.Passes.map (fun pass =>
            countSub "<tr>".data (utcSecondsToLocalTime w pass.StartVisibility).data +
            countSub "<tr>".data (utcSecondsToLocalTime w pass.StartUTC).data +
            countSub "<tr>".data pass.StartAzCompass.data +
            countSub "<tr>".data (utcSecondsToLocalTime w pass.MaxUTC).data +
            countSub "<tr>".data pass.MaxAzCompass.data +
            countSub "<tr>".data (utcSecondsToLocalTime w pass.EndUTC).data +
            countSub "<tr>".data pass.EndAzCompass.data)).sum ∧
      ((∀ pass ∈ v.Passes,
          Contains (utcSecondsToLocalTime w pass.StartVisibility) "<tr>" = false ∧
          Contains (utcSecondsToLocalTime w pass.StartUTC) "<tr>" = false ∧
          Contains pass.StartAzCompass "<tr>" = false ∧
          Contains (utcSecondsToLocalTime w pass.MaxUTC) "<tr>" = false ∧
          Contains pass.MaxAzCompass "<tr>" = false ∧
          Contains (utcSecondsToLocalTime w pass.EndUTC) "<tr>" = false ∧
          Contains pass.EndAzCompass "<tr>" = false) →
        countSub "<tr>".data (makePassTable w v).data = v.Passes.length + 1) := by
  have hmk : makePassTable w v =
      htmlStart ++ String.join (v.Passes.map (passRow w)) ++ htmlEnd := by
    unfold makePassTable
    simp only
    rw [foldl_append_map, String.empty_append]
  have hstart : ∀ x, countSub ['<', 't', 'r', '>'] (htmlStart.data ++ x) =
      1 + countSub ['<', 't', 'r', '>'] x := by
    intro x
    exact countSub_one ['<', 't', 'r', '>'] "\n    <table> \n        ".data
      " \n\t\t    <th>Magnitude</th>\n\t\t    <th>Duration</th>\n\t\t    <th>Start Visibility</th>\n\t\t    <th>Start</th>\n\t\t    <th>Start Azimuth</th>\n\t\t    <th>Start Elevation</th>\n\t\t    <th>Max</th>\n\t\t    <th>Max Azimuth</th>\n\t\t    <th>Max Elevation</th>\n\t\t    <th>End</th>\n\t\t    <th>End Azimuth</th>\n\t\t    <th>End Elevation</th>\n       </tr>".data
      x (by decide) (by decide) (by decide)
  have hend : countSub ['<', 't', 'r', '>'] htmlEnd.data = 0 := by decide
  have hcount : countSub "<tr>".data (makePassTable w v).data =
      v.Passes.length + 1 +
        (v.Passes.map (fun pass =>
          countSub "<tr>".data (utcSecondsToLocalTime w pass.StartVisibility).data +
            countSub "<tr>".data (utcSecondsToLocalTime w pass.StartUTC).data +
            countSub "<tr>".data pass.StartAzCompass.data +
            countSub "<tr>".data (utcSecondsToLocalTime w pass.MaxUTC).data +
            countSub "<tr>".data pass.MaxAzCompass.data +
            countSub "<tr>".data (utcSecondsToLocalTime w pass.EndUTC).data +
            countSub "<tr>".data pass.EndAzCompass.data)).sum := by
    rw [hmk, String.data_append, String.data_append, List.append_assoc]
    show countSub ['<', 't', 'r', '>'] _ = _
    rw [hstart, countSub_rows_exact w v.Passes, hend]
    show _ = v.Passes.length + 1 + (v.Passes.map (fun pass => countSub ['<', 't', 'r', '>'] (utcSecondsToLocalTime w pass.StartVisibility).data +
            countSub ['<', 't', 'r', '>'] (utcSecondsToLocalTime w pass.StartUTC).data +
            countSub ['<', 't', 'r', '>'] pass.StartAzCompass.data +
            countSub ['<', 't', 'r', '>'] (utcSecondsToLocalTime w pass.MaxUTC).data +
            countSub ['<', 't', 'r', '>'] pass.MaxAzCompass.data +
            countSub ['<', 't', 'r', '>'] (utcSecondsToLocalTime w pass.EndUTC).data +
            countSub ['<', 't', 'r', '>'] pass.EndAzCompass.data)).sum
    omega
  refine ⟨hmk, ?_, hcount, ?_⟩
  · unfold makePassTable
    simp only [List.foldl_nil, String.append_empty]
    decide
  · intro hsafe
    rw [hcount]
    have hzero : (v.Passes.map (fun pass =>
          countSub "<tr>".data (utcSecondsToLocalTime w pass.StartVisibility).data +
            countSub "<tr>".data (utcSecondsToLocalTime w pass.StartUTC).data +
            countSub "<tr>".data pass.StartAzCompass.data +
            countSub "<tr>".data (utcSecondsToLocalTime w pass.MaxUTC).data +
            countSub "<tr>".data pass.MaxAzCompass.data +
            countSub "<tr>".data (utcSecondsToLocalTime w pass.EndUTC).data +
            countSub "<tr>".data pass.EndAzCompass.data)).sum = 0 := by
      apply List.sum_eq_zero
      intro n hn
      obtain ⟨pass, hp, rfl⟩ := List.mem_map.mp hn
      obtain ⟨a1, a2, a3, a4, a5, a6, a7⟩ := hsafe pass hp
      rw [countSub_eq_zero_of_not_contains _ a1, countSub_eq_zero_of_not_contains _ a2,
        countSub_eq_zero_of_not_contains _ a3, countSub_eq_zero_of_not_contains _ a4,
        countSub_eq_zero_of_not_contains _ a5, countSub_eq_zero_of_not_contains _ a6,
        countSub_eq_zero_of_not_contains _ a7]
      rfl
    rw [hzero]

/-- The theorem `makePassTable_rows` at the sample report, whose compass labels and time
texts hold no `<tr>`: one pass, and `<tr>` twice. -/
theorem makePassTable_rows_witness :
    countSub "<tr>".data (makePassTable sampleWorld sampleReport).data = 2 :=
  (makePassTable_rows sampleWorld sampleReport).2.2.2 (by decide)

/-! ## The page handler -/

/-- C9: when the template has been loaded, the handler executes it on page data whose
`Count` is the number of reports that `getVisualPasses` returned, whose `Content` is,
for these reports in order, the summary, a line break, the pass table and a line break,
and whose `Status` is `Error: ` followed by the message when `getVisualPasses` returned
an error and `OK` otherwise: the fragments of the reports obtained before an error are
all there. -/
theorem satelliteWatchHandler_pageData (w : World)
    (tmpl : PageData → String × Option String)
    (h : w.parseFiles "pages/satellite-passes.html" = .ok tmpl) :
    ∃ data, satelliteWatchHandler w = renderEffects (tmpl data) ∧
      data.Count = ((getVisualPasses w [25544, 48274, 20580]).1.length : Int) ∧
      data.Content = String.join ((getVisualPasses w [25544, 48274, 20580]).1.map
        (fun r => makeInfoTable r ++ "<br/>" ++ makePassTable w r ++ "<br/>")) ∧
      data.Status = (match (getVisualPasses w [25544, 48274, 20580]).2 with
        | some e => "Error: " ++ e
        | none => "OK") := by
  refine ⟨pageData w (getVisualPasses w [25544, 48274, 20580]).1
    (getVisualPasses w [25544, 48274, 20580]).2, ?_, rfl, ?_, rfl⟩
  · unfold satelliteWatchHandler
    rw [h]
    simp only
    rcases tmpl _ with ⟨out, _ | e⟩ <;> rfl
  · unfold pageData
    simp only
    have hf : (fun (acc : String) (sighting : VisualPassesStructure) =>
        acc ++ makeInfoTable sighting ++ "<br/>" ++ makePassTable w sighting ++ "<br/>") =
        (fun acc sighting => acc ++
          (makeInfoTable sighting ++ "<br/>" ++ makePassTable w sighting ++ "<br/>")) := by
      funext acc sighting
      simp only [String.append_assoc]
    rw [hf, foldl_append_map, String.empty_append]

/-- The theorem `satelliteWatchHandler_pageData` in a world where the second of the
three fetches fails: the page shows one report and a status that begins with
`Error:`. -/
theorem satelliteWatchHandler_pageData_witness :
    ∃ data, satelliteWatchHandler sampleWorld = renderEffects (sampleTemplate data) ∧
      data.Count = 1 ∧
      data.Content = makeInfoTable sampleReport ++ "<br/>" ++
        makePassTable sampleWorld sampleReport ++ "<br/>" ∧
      data.Status = "Error: obtaining visual pass information: " ++
        "open ./examples/visualpasses-48274.json: no such file or directory" := by
  obtain ⟨data, h1, h2, h3, h4⟩ :=
    satelliteWatchHandler_pageData sampleWorld sampleTemplate rfl
  refine ⟨data, h1, ?_, ?_, ?_⟩
  · rw [h2]; decide
  · rw [h3]; decide
  · rw [h4]; decide

/-! ## Fetching the reports -/

theorem getVisualPassesLoop_eq (w : World) (ids : List Int)
    (results : List VisualPassesStructure) :
    getVisualPassesLoop w true ids results =
      (results ++ (ids.takeWhile (fun i => (fetchReport w i).isOk)).filterMap
          (fun i => (fetchReport w i).toOption),
        (ids.find? (fun i => !(fetchReport w i).isOk)).bind
          (fun i => errorOf (fetchReport w i))) := by
  induction ids generalizing results with
  | nil => simp [getVisualPassesLoop]
  | cons i rest ih =>
    unfold getVisualPassesLoop
    cases hp : performVisualPasses w true i with
    | error e =>
      simp [fetchReport, hp, Except.isOk, Except.toBool, errorOf]
    | ok raw =>
      cases hu : w.unmarshal raw with
      | error e =>
        simp [fetchReport, hp, hu, Except.isOk, Except.toBool, errorOf]
      | ok report =>
        simp only [ih]
        simp [fetchReport, hp, hu, Except.isOk, Except.toBool, Except.toOption]

/-- C1: `getVisualPasses` returns the decoded reports of the ids that precede the first
id whose fetch or decoding fails, in the order of the ids, together with the error of
that first failing id; when no id fails it returns one report per id, in order, and no
error. -/
theorem getVisualPasses_prefix (w : World) (ids : List Int) :
    (getVisualPasses w ids).1 =
        (ids.takeWhile (fun i => (fetchReport w i).isOk)).filterMap
          (fun i => (fetchReport w i).toOption) ∧
      (getVisualPasses w ids).1.length =
        (ids.takeWhile (fun i => (fetchReport w i).isOk)).length ∧
      (getVisualPasses w ids).2 =
        (ids.find? (fun i => !(fetchReport w i).isOk)).bind
          (fun i => errorOf (fetchReport w i)) ∧
      ((getVisualPasses w ids).2 = none ↔ ∀ i ∈ ids, (fetchReport w i).isOk = true) ∧
      ((getVisualPasses w ids).2 = none ↔ (getVisualPasses w ids).1.length = ids.length) := by
  have hloop := getVisualPassesLoop_eq w ids []
  have h1 : (getVisualPasses w ids).1 =
      (ids.takeWhile (fun i => (fetchReport w i).isOk)).filterMap
        (fun i => (fetchReport w i).toOption) := by
    unfold getVisualPasses
    rw [hloop]
    simp
  have h2 : (getVisualPasses w ids).2 =
      (ids.find? (fun i => !(fetchReport w i).isOk)).bind
        (fun i => errorOf (fetchReport w i)) := by
    unfold getVisualPasses
    rw [hloop]
  have hlen : ∀ l : List Int, (∀ i ∈ l, (fetchReport w i).isOk = true) →
      (l.filterMap (fun i => (fetchReport w i).toOption)).length = l.length := by
    intro l
    induction l with
    | nil => simp
    | cons a l ih =>
      intro hall
      have ha := hall a (List.mem_cons_self a l)
      cases hf : fetchReport w a with
      | error e => simp [hf, Except.isOk, Except.toBool] at ha
      | ok r =>
        have ih2 := ih (fun i hi => hall i (List.mem_cons_of_mem a hi))
        simp only [List.filterMap_cons, hf, Except.toOption, List.length_cons]
        simp only [Except.toOption] at ih2
        rw [ih2]
  have h3 : (getVisualPasses w ids).1.length =
      (ids.takeWhile (fun i => (fetchReport w i).isOk)).length := by
    rw [h1]
    apply hlen
    intro i hi
    exact List.mem_takeWhile_imp (p := fun i => (fetchReport w i).isOk) hi
  have h4 : (getVisualPasses w ids).2 = none ↔
      ∀ i ∈ ids, (fetchReport w i).isOk = true := by
    rw [h2]
    constructor
    · intro h i hi
      cases hfind : ids.find? (fun i => !(fetchReport w i).isOk) with
      | none =>
        have := List.find?_eq_none.mp hfind i hi
        simpa using this
      | some j =>
        rw [hfind] at h
        have hj := List.find?_some hfind
        cases hf : fetchReport w j with
        | error e => simp [hf, errorOf] at h
        | ok r => simp [hf, Except.isOk, Except.toBool] at hj
    · intro h
      have : ids.find? (fun i => !(fetchReport w i).isOk) = none := by
        apply List.find?_eq_none.mpr
        intro i hi
        simp [h i hi]
      rw [this]
      rfl
  refine ⟨h1, h3, h2, h4, ?_⟩
  rw [h4, h3]
  constructor
  · intro h
    rw [List.takeWhile_eq_self_iff.mpr (fun i hi => h i hi)]
  · intro h i hi
    have hpre : ids.takeWhile (fun i => (fetchReport w i).isOk) = ids := by
      have hp := List.takeWhile_prefix (fun i => (fetchReport w i).isOk) (l := ids)
      exact List.IsPrefix.eq_of_length hp h
    exact List.takeWhile_eq_self_iff.mp hpre i hi

/-- The theorem `getVisualPasses_prefix` at three ids of which the second fails: exactly
one report is returned, together with an error. -/
theorem getVisualPasses_prefix_witness :
    (getVisualPasses sampleWorld [25544, 48274, 20580]).1.length = 1 ∧
      (getVisualPasses sampleWorld [25544, 48274, 20580]).2 =
        some ("obtaining visual pass information: " ++
          "open ./examples/visualpasses-48274.json: no such file or directory") := by
  have h := getVisualPasses_prefix sampleWorld [25544, 48274, 20580]
  refine ⟨?_, ?_⟩
  · rw [h.2.1]; decide
  · rw [h.2.2.1]; decide

theorem getVisualPasses_second_fails (w : World) (a b c : Int)
    (r : VisualPassesStructure) (e : String)
    (ha : fetchReport w a = .ok r) (hb : fetchReport w b = .error e) :
    getVisualPasses w [a, b, c] = ([r], some e) := by
  unfold getVisualPasses
  rw [getVisualPassesLoop_eq]
  simp [ha, hb, Except.isOk, Except.toBool, Except.toOption, errorOf]

/-! ## The configuration loader -/

theorem readHeadersStep_eq (headers : Headers) (text : String) :
    readHeadersStep headers text =
      match parseLine text with
      | some (k, v) => headers.set k v
      | none => headers := by
  unfold readHeadersStep parseLine isIgnoredLine
  simp only
  by_cases hi : (TrimSpace text == "" || startsWith (TrimSpace text) '#') = true
  · simp only [hi, if_true]
  · simp only [hi, Bool.false_eq_true, if_false]
    split <;> rfl

theorem find_map_replace (m : Headers) (k v k' : String) :
    ((m.map (fun p => if p.1 == k then (k, v) else p)).find?
        (fun p => p.1 == k')).map Prod.snd =
      if k' = k then (if m.any (fun p => p.1 == k) then some v else none)
      else (m.find? (fun p => p.1 == k')).map Prod.snd := by
  induction m with
  | nil => simp
  | cons p m ih =>
    simp only [List.map_cons, List.find?_cons, List.any_cons]
    by_cases hpk : p.1 = k
    · by_cases hk : k' = k
      · subst hk; subst hpk
        simp
      · have hne : ¬ (p.1 = k') := fun h => hk (h.symm.trans hpk)
        have hb : (p.1 == k') = false := by simpa using hne
        simp only [hk, if_false] at ih
        subst hpk
        simp only [beq_self_eq_true, if_true, hk, if_false, hb]
        exact ih
    · have hb : (p.1 == k) = false := by simpa using hpk
      simp only [hb, Bool.false_eq_true, if_false, Bool.false_or]
      by_cases hpk' : p.1 = k'
      · have hk : ¬ (k' = k) := fun h => hpk (hpk'.trans h)
        simp [hpk', hk]
      · have hb' : (p.1 == k') = false := by simpa using hpk'
        simp only [hb']
        exact ih

theorem Headers.find_set (m : Headers) (k v k' : String) :
    (m.set k v).find k' = if k' = k then some v else m.find k' := by
  unfold Headers.set Headers.find
  by_cases hany : m.any (fun p => p.1 == k) = true
  · rw [if_pos hany, find_map_replace, hany]
    simp
  · rw [if_neg hany]
    have hnone : m.find? (fun p => p.1 == k) = none := by
      apply List.find?_eq_none.mpr
      intro x hx hxk
      exact hany (List.any_eq_true.mpr ⟨x, hx, hxk⟩)
    rw [List.find?_append]
    by_cases hk : k' = k
    · subst hk
      simp [hnone]
    · have hne : ¬ (k = k') := fun h => hk h.symm
      simp only [hk, if_false]
      cases hf : m.find? (fun p => p.1 == k') with
      | none => simp [hne]
      | some q => simp

theorem find_foldl_readHeadersStep (lines : List String) (init : Headers) (k : String) :
    (lines.foldl readHeadersStep init).find k =
      (lastValue k (lines.filterMap parseLine)).or (init.find k) := by
  induction lines generalizing init with
  | nil => simp [lastValue]
  | cons t ts ih =>
    rw [List.foldl_cons, ih, readHeadersStep_eq]
    cases hp : parseLine t with
    | none => simp [List.filterMap_cons, hp]
    | some kv =>
      obtain ⟨k', v'⟩ := kv
      simp only [List.filterMap_cons, hp, lastValue, List.reverse_cons, List.find?_append,
        Headers.find_set]
      cases hf : (ts.filterMap parseLine).reverse.find? (fun p => p.1 == k) with
      | some q => simp
      | none =>
        by_cases hk : k = k'
        · subst hk; simp
        · have hne : ¬ (k' = k) := fun h => hk h.symm
          simp [hk, hne]

theorem trimChars_idempotent (l : List Char) : trimChars (trimChars l) = trimChars l := by
  unfold trimChars
  have hd : ((l.dropWhile isSpace).rdropWhile isSpace).dropWhile isSpace =
      (l.dropWhile isSpace).rdropWhile isSpace := by
    generalize hdl : l.dropWhile isSpace = d
    have hhead : d.dropWhile isSpace = d := by
      rw [← hdl]; exact List.dropWhile_idempotent _ _
    cases d with
    | nil => simp [List.rdropWhile]
    | cons c d =>
      have hc : ¬ isSpace c = true := by
        have := List.dropWhile_eq_self_iff.mp hhead (by simp)
        simpa using this
      obtain ⟨t, ht⟩ := List.rdropWhile_prefix isSpace (c :: d)
      cases hr : (c :: d).rdropWhile isSpace with
      | nil =>
        have hall := List.rdropWhile_eq_nil_iff.mp hr c (List.mem_cons_self c d)
        exact absurd hall hc
      | cons c' r =>
        rw [hr] at ht
        have hcc : c' = c := by
          simp only [List.cons_append, List.cons.injEq] at ht
          exact ht.1
        subst hcc
        exact List.dropWhile_cons_of_neg hc
  rw [hd, List.rdropWhile_idempotent]

theorem TrimSpace_idempotent (s : String) : TrimSpace (TrimSpace s) = TrimSpace s := by
  unfold TrimSpace
  simp only [trimChars_idempotent]

theorem parseLine_ignored (text : String) (h : isIgnoredLine text = true) :
    parseLine text = none := by
  unfold parseLine
  rw [if_pos h]

theorem parseLine_trimmed (text k v : String) (h : parseLine text = some (k, v)) :
    isIgnoredLine text = false ∧ TrimSpace k = k ∧ TrimSpace v = v := by
  unfold parseLine at h
  by_cases hi : isIgnoredLine text = true
  · rw [if_pos hi] at h
    cases h
  · rw [if_neg hi] at h
    refine ⟨by simpa using hi, ?_⟩
    split at h
    · rename_i a b _
      simp only [Option.some.injEq, Prod.mk.injEq] at h
      rw [← h.1, ← h.2]
      exact ⟨TrimSpace_idempotent a, TrimSpace_idempotent b⟩
    · cases h

theorem SplitN2_first (a b : String) (sep : Char) (ha : sep ∉ a.data) :
    SplitN2 (a ++ String.singleton sep ++ b) sep = [a, b] := by
  unfold SplitN2
  have hall : ∀ c ∈ a.data, (fun c => c != sep) c = true := by
    intro c hc
    have : c ≠ sep := fun h => ha (h ▸ hc)
    simpa using this
  have hdata : (a ++ String.singleton sep ++ b).data = a.data ++ sep :: b.data := by
    simp [String.data_append, String.singleton]
  rw [hdata, List.span_eq_take_drop, List.takeWhile_append_of_pos hall,
    List.dropWhile_append_of_pos hall]
  simp

theorem parseLine_first_colon (text a b : String)
    (hsplit : TrimSpace text = a ++ ":" ++ b) (ha : ':' ∉ a.data)
    (hni : isIgnoredLine text = false) :
    parseLine text = some (TrimSpace a, TrimSpace b) := by
  unfold parseLine
  rw [hni, hsplit]
  have h := SplitN2_first a b ':' ha
  have hs : String.singleton ':' = ":" := by decide
  rw [hs] at h
  simp only [Bool.false_eq_true, if_false, h]

theorem foldl_readHeadersStep_filter (lines : List String) (init : Headers) :
    lines.foldl readHeadersStep init =
      (lines.filter (fun t => !isIgnoredLine t)).foldl readHeadersStep init := by
  induction lines generalizing init with
  | nil => rfl
  | cons t ts ih =>
    by_cases hi : isIgnoredLine t = true
    · have hstep : readHeadersStep init t = init := by
        rw [readHeadersStep_eq, parseLine_ignored t hi]
      simp only [List.foldl_cons, hstep, List.filter_cons, hi, Bool.not_true,
        Bool.false_eq_true, if_false]
      exact ih init
    · have hi2 : isIgnoredLine t = false := by simpa using hi
      simp only [List.foldl_cons, List.filter_cons, hi2, Bool.not_false, if_true]
      exact ih _

theorem filter_insert_ignored (pre post : List String) (t : String)
    (hi : isIgnoredLine t = true) :
    (pre ++ t :: post).filter (fun t => !isIgnoredLine t) =
      (pre ++ post).filter (fun t => !isIgnoredLine t) := by
  simp [List.filter_append, List.filter_cons, hi]

theorem readHeadersFromDotfile_ok (openFile : String → Except String File)
    (filename : String) (file : File) (h : openFile filename = .ok file)
    (hs : file.scanErr = none) :
    readHeadersFromDotfile openFile filename = .ok (file.lines.foldl readHeadersStep []) := by
  unfold readHeadersFromDotfile
  rw [h]
  simp only [hs]

/-- C2: when the dotfile can be opened and scanned, `readHeadersFromDotfile` returns a
mapping in which every key holds the value of the last line that gives this key: each
entry comes from a line that is not ignored and has the form `key: value`, key and value
trimmed; each such line has its key in the mapping; lines that are blank once trimmed or
start with `#` contribute nothing, and the mapping is the one obtained from the other
lines alone, so that inserting or removing an ignored line leaves it unchanged. -/
theorem readHeaders_pairs (openFile : String → Except String File) (filename : String)
    (file : File) (h : openFile filename = .ok file) (hs : file.scanErr = none) :
    ∃ headers, readHeadersFromDotfile openFile filename = .ok headers ∧
      (∀ k, headers.find k = lastValue k (file.lines.filterMap parseLine)) ∧
      (∀ k v, headers.find k = some v →
        TrimSpace k = k ∧ TrimSpace v = v ∧
          ∃ t ∈ file.lines, isIgnoredLine t = false ∧ parseLine t = some (k, v)) ∧
      (∀ t ∈ file.lines, ∀ k v, parseLine t = some (k, v) → ∃ v', headers.find k = some v') ∧
      (∀ t, isIgnoredLine t = true → parseLine t = none) ∧
      headers = (file.lines.filter (fun t => !isIgnoredLine t)).foldl readHeadersStep [] ∧
      (∀ pre post t, file.lines = pre ++ post → isIgnoredLine t = true →
        readHeadersFromDotfile (fun _ => .ok ⟨pre ++ t :: post, none⟩) filename =
          .ok headers) ∧
      (∀ pre post t, file.lines = pre ++ t :: post → isIgnoredLine t = true →
        readHeadersFromDotfile (fun _ => .ok ⟨pre ++ post, none⟩) filename =
          .ok headers) := by
  have hfind : ∀ k, (file.lines.foldl readHeadersStep []).find k =
      lastValue k (file.lines.filterMap parseLine) := by
    intro k
    rw [find_foldl_readHeadersStep]
    cases lastValue k (file.lines.filterMap parseLine) <;> rfl
  refine ⟨file.lines.foldl readHeadersStep [], readHeadersFromDotfile_ok _ _ _ h hs, hfind,
    ?_, ?_, parseLine_ignored, foldl_readHeadersStep_filter _ _, ?_, ?_⟩
  · intro k v hkv
    rw [hfind, lastValue] at hkv
    cases hf : (file.lines.filterMap parseLine).reverse.find? (fun p => p.1 == k) with
    | none => rw [hf] at hkv; cases hkv
    | some p =>
      rw [hf] at hkv
      simp only [Option.map_some', Option.some.injEq] at hkv
      have hpk : p.1 = k := by simpa using List.find?_some hf
      have hmem : p ∈ file.lines.filterMap parseLine :=
        List.mem_reverse.mp (List.mem_of_find?_eq_some hf)
      obtain ⟨t, ht, hpt⟩ := List.mem_filterMap.mp hmem
      have hp : p = (k, v) := by
        rw [← hpk, ← hkv]
      rw [hp] at hpt
      obtain ⟨h1, h2, h3⟩ := parseLine_trimmed t k v hpt
      exact ⟨h2, h3, t, ht, h1, hpt⟩
  · intro t ht k v hpt
    rw [hfind, lastValue]
    have hmem : (k, v) ∈ (file.lines.filterMap parseLine).reverse :=
      List.mem_reverse.mpr (List.mem_filterMap.mpr ⟨t, ht, hpt⟩)
    cases hf : (file.lines.filterMap parseLine).reverse.find? (fun p => p.1 == k) with
    | none =>
      have := List.find?_eq_none.mp hf (k, v) hmem
      simp at this
    | some p => exact ⟨p.2, rfl⟩
  · intro pre post t hl hi
    rw [readHeadersFromDotfile_ok (fun _ => .ok ⟨pre ++ t :: post, none⟩) filename
      ⟨pre ++ t :: post, none⟩ rfl rfl]
    simp only
    rw [foldl_readHeadersStep_filter, filter_insert_ignored pre post t hi, ← hl,
      ← foldl_readHeadersStep_filter]
  · intro pre post t hl hi
    rw [readHeadersFromDotfile_ok (fun _ => .ok ⟨pre ++ post, none⟩) filename
      ⟨pre ++ post, none⟩ rfl rfl]
    simp only
    rw [foldl_readHeadersStep_filter (pre ++ post), ← filter_insert_ignored pre post t hi,
      ← hl, ← foldl_readHeadersStep_filter]

/-- The theorem `readHeaders_pairs` at a sample file with a comment, blank lines and two
entries: the mapping holds the two trimmed entries. -/
theorem readHeaders_pairs_witness :
    readHeadersFromDotfile (fun _ => .ok sampleEnvFile) ".env" =
        .ok [("apiKey", "ABC-123"), ("days", "10")] ∧
      ∃ headers, readHeadersFromDotfile (fun _ => .ok sampleEnvFile) ".env" = .ok headers ∧
        headers.find "apiKey" = some "ABC-123" ∧
        headers = ["apiKey: ABC-123 ", "days : 10"].foldl readHeadersStep [] := by
  refine ⟨by decide, ?_⟩
  obtain ⟨headers, h1, h2, _, _, _, h6, _⟩ :=
    readHeaders_pairs (fun _ => .ok sampleEnvFile) ".env" sampleEnvFile rfl rfl
  refine ⟨headers, h1, ?_, ?_⟩
  · rw [h2]; decide
  · rw [h6]; decide

/-- C3: a line that is not ignored is split at its first `:` only: when the trimmed line
is `a`, a colon, `b`, with no colon in `a`, it gives the key `a` trimmed and the value `b`
trimmed, whatever colons `b` holds; and when no later line gives the same key, the
returned mapping holds that value for that key, so the last of several lines with one
key wins. -/
theorem readHeaders_first_colon_last_wins (openFile : String → Except String File)
    (filename : String) (file : File) (h : openFile filename = .ok file)
    (hs : file.scanErr = none) (pre post : List String) (text a b : String)
    (hl : file.lines = pre ++ text :: post)
    (hni : isIgnoredLine text = false)
    (hsplit : TrimSpace text = a ++ ":" ++ b) (ha : ':' ∉ a.data)
    (hlast : ∀ t ∈ post, (parseLine t).map Prod.fst ≠ some (TrimSpace a)) :
    readHeadersStep [] text = [(TrimSpace a, TrimSpace b)] ∧
      ∃ headers, readHeadersFromDotfile openFile filename = .ok headers ∧
        headers.find (TrimSpace a) = some (TrimSpace b) ∧
        headers.get (TrimSpace a) = TrimSpace b := by
  have hparse := parseLine_first_colon text a b hsplit ha hni
  have hfind : (file.lines.foldl readHeadersStep []).find (TrimSpace a) =
      some (TrimSpace b) := by
    rw [find_foldl_readHeadersStep, hl, List.filterMap_append, List.filterMap_cons, hparse,
      lastValue]
    simp only [List.reverse_append, List.reverse_cons, List.append_assoc, List.find?_append]
    have hnone : (post.filterMap parseLine).reverse.find?
        (fun p => p.1 == TrimSpace a) = none := by
      apply List.find?_eq_none.mpr
      intro p hp hpa
      obtain ⟨t, ht, hpt⟩ := List.mem_filterMap.mp (List.mem_reverse.mp hp)
      apply hlast t ht
      rw [hpt]
      simpa using hpa
    rw [hnone]
    simp
  refine ⟨?_, file.lines.foldl readHeadersStep [],
    readHeadersFromDotfile_ok _ _ _ h hs, hfind, ?_⟩
  · rw [readHeadersStep_eq, hparse]
    rfl
  · unfold Headers.get
    rw [hfind]
    rfl

/-- The theorem `readHeaders_first_colon_last_wins` at a sample file where the key `url`
occurs twice and the second value holds colons: the mapping holds the second value,
cut after the first colon of its line only. -/
theorem readHeaders_first_colon_last_wins_witness :
    ∃ headers, readHeadersFromDotfile (fun _ => .ok sampleDuplicateFile) ".env" =
        .ok headers ∧
      headers.find "url" = some "https://b:8080/x" ∧
      headers.get "url" = "https://b:8080/x" :=
  (readHeaders_first_colon_last_wins (fun _ => .ok sampleDuplicateFile) ".env"
    sampleDuplicateFile rfl rfl ["url: http://a", "# comment"] ["other: y"]
    " url : https://b:8080/x " "url " " https://b:8080/x" rfl (by decide) (by decide)
    (by decide) (by decide)).2

/-! ## The live request -/

/-- C4, the code at a failing input: the location is complete and the preferences lack
`minimum_visibility`.  The path built is `/visualpasses/25544/51.5/0.12/0/10/` followed
by the query; its empty last segment is followed by `?`, not by `/`, so the path holds
no `//`, the check passes, and the request is handed to the HTTP client: no
configuration error is returned. -/
theorem performVisualPassesLive_missing_visibility :
    (readHeadersFromDotfile missingVisibilityWorld.openFile ".preferences").map
        (fun preferences => preferences.get "minimum_visibility") = .ok "" ∧
      fullURL 25544 [("apiKey", "KEY")]
          [("latitude", "51.5"), ("longitude", "0.12"), ("altitude", "0")]
          [("days", "10")] =
        "/visualpasses/25544/51.5/0.12/0/10/?apiKey=KEY" ∧
      Contains "/visualpasses/25544/51.5/0.12/0/10/?apiKey=KEY" "//" = false ∧
      (performVisualPassesLive missingVisibilityWorld 25544).sent =
        ["https://api.n2yo.com/rest/v1/satellite/visualpasses/25544/51.5/0.12/0/10/?apiKey=KEY"] ∧
      (performVisualPassesLive missingVisibilityWorld 25544).result = .ok [] := by
  refine ⟨by decide, by decide, by decide, by decide, by decide⟩

theorem contains_empty_segment (s t : String) :
    Contains (s ++ "/" ++ "" ++ "/" ++ t) "//" = true := by
  unfold Contains
  rw [decide_eq_true_iff]
  refine ⟨s.data, t.data, ?_⟩
  simp [String.data_append]

/-- When the three dotfiles have been read and one of `latitude`, `longitude`,
`altitude`, `days` is missing or empty, `performVisualPassesLive` returns the
configuration error and hands no request to the HTTP client. -/
theorem performVisualPassesLive_empty_segment (w : World) (satelliteId : Int)
    (env location preferences : Headers)
    (henv : readHeadersFromDotfile w.openFile ".env" = .ok env)
    (hloc : readHeadersFromDotfile w.openFile ".location" = .ok location)
    (hpref : readHeadersFromDotfile w.openFile ".preferences" = .ok preferences)
    (hmissing : location.get "latitude" = "" ∨ location.get "longitude" = "" ∨
      location.get "altitude" = "" ∨ preferences.get "days" = "") :
    Contains (fullURL satelliteId env location preferences) "//" = true ∧
      performVisualPassesLive w satelliteId =
        ⟨.error ("some location or preference information is missing: " ++
          fullURL satelliteId env location preferences), []⟩ := by
  have hc : Contains (fullURL satelliteId env location preferences) "//" = true := by
    unfold fullURL
    rcases hmissing with h | h | h | h
    · rw [h]
      have := contains_empty_segment ("/visualpasses/" ++ fmtInt satelliteId)
        (location.get "longitude" ++ "/" ++ location.get "altitude" ++ "/" ++
          preferences.get "days" ++ "/" ++ preferences.get "minimum_visibility" ++ "?" ++
          Encode env)
      simpa only [String.append_assoc] using this
    · rw [h]
      have := contains_empty_segment
        ("/visualpasses/" ++ fmtInt satelliteId ++ "/" ++ location.get "latitude")
        (location.get "altitude" ++ "/" ++
          preferences.get "days" ++ "/" ++ preferences.get "minimum_visibility" ++ "?" ++
          Encode env)
      simpa only [String.append_assoc] using this
    · rw [h]
      have := contains_empty_segment
        ("/visualpasses/" ++ fmtInt satelliteId ++ "/" ++ location.get "latitude" ++ "/" ++
          location.get "longitude")
        (preferences.get "days" ++ "/" ++ preferences.get "minimum_visibility" ++ "?" ++
          Encode env)
      simpa only [String.append_assoc] using this
    · rw [h]
      have := contains_empty_segment
        ("/visualpasses/" ++ fmtInt satelliteId ++ "/" ++ location.get "latitude" ++ "/" ++
          location.get "longitude" ++ "/" ++ location.get "altitude")
        (preferences.get "minimum_visibility" ++ "?" ++ Encode env)
      simpa only [String.append_assoc] using this
  refine ⟨hc, ?_⟩
  unfold performVisualPassesLive
  simp only [henv, hloc, hpref, hc, if_true]

end SatelliteWatch
